import Mathlib

/-!
Verification of the client-side job-lifecycle and log-reconciliation engine
of the finance ingestion dashboard (src/app/page.tsx, the tabbed version with
the DRE report panel).  The TypeScript component state and handlers are
shallowly embedded as pure Lean functions and a small-step event relation;
React's `useEffect` cleanup/re-run semantics for the polling interval are made
explicit in `syncEffect`.
-/

namespace FinanceDash

/-- The type `LogType` from page.tsx: `'info' | 'success' | 'error' | 'server'`. -/
inductive LogType where
  | info
  | success
  | error
  | server
deriving DecidableEq

/-- The type `LogMessage` from page.tsx: `{ type: LogType; text: string }`. -/
structure LogMessage where
  type : LogType
  text : String
deriving DecidableEq

/-- The texts occurring in a transcript, in order (the basis of the
`existingTexts` set built inside `addLogs`). -/
def texts (l : List LogMessage) : List String := l.map LogMessage.text

/-- The helper `addLogs` (page.tsx lines 493-503): filter the incoming batch against the
set of texts already present in the current transcript, and append the
survivors at the end; when nothing survives the state is returned unchanged. -/
def addLogs (currentLogs newLogs : List LogMessage) : List LogMessage :=
  let filteredNewLogs := newLogs.filter fun log => decide (log.text ∉ texts currentLogs)
  if 0 < filteredNewLogs.length then currentLogs ++ filteredNewLogs else currentLogs

/-- Folding a sequence of `addLogs` batches from the empty transcript, as a
polling session does. -/
def applyBatches (bs : List (List LogMessage)) : List LogMessage :=
  bs.foldl addLogs []

/-- Concatenation of all batches, in arrival order. -/
def joinAll : List (List LogMessage) → List LogMessage
  | [] => []
  | b :: bs => b ++ joinAll bs

/-- Modelled from the spec (§3, §4.1): first-occurrence-wins deduplication by
`text` over a stream of entries, threading an explicit seen-set.  This is the
spec-side reference behaviour that the code's transcript is compared with. -/
def dedupFrom (seen : List String) : List LogMessage → List LogMessage
  | [] => []
  | e :: rest =>
    if e.text ∈ seen then dedupFrom seen rest
    else e :: dedupFrom (e.text :: seen) rest

/-- Modelled from the spec (§3): the deduplicated view of a whole stream,
keeping the first occurrence of each text. -/
def dedupByText (l : List LogMessage) : List LogMessage := dedupFrom [] l

/-- Boolean prefix test on character lists. -/
def charsPrefixOf : List Char → List Char → Bool
  | [], _ => true
  | _ :: _, [] => false
  | a :: as, b :: bs => a == b && charsPrefixOf as bs

/-- Boolean substring test on character lists. -/
def charsContain (pat : List Char) : List Char → Bool
  | [] => charsPrefixOf pat []
  | c :: rest => charsPrefixOf pat (c :: rest) || charsContain pat rest

/-- JavaScript's `String.prototype.includes`: substring containment. -/
def strIncludes (s pat : String) : Bool := charsContain pat.toList s.toList

/-- The component state of `IngestionDashboard` (page.tsx lines 468-484)
together with the runtime resources the claims are about: `refSet` mirrors
`pollingIntervalRef.current !== null`, `intervals` counts interval timers that
have been created by `setInterval` and not yet cleared by `clearInterval`,
`pollInflight` counts issued but unresolved `GET /api/get_logs` requests, and
`uploadPending` records an issued but unresolved upload `POST`. -/
structure Dash where
  bankFile : Option String
  internalFile : Option String
  isProcessing : Bool
  currentJobId : Option String
  logMessages : List LogMessage
  refSet : Bool
  intervals : Nat
  pollInflight : Nat
  uploadPending : Bool
deriving DecidableEq

/-- The initial component state (page.tsx lines 469-475). -/
def init : Dash :=
  { bankFile := none
    internalFile := none
    isProcessing := false
    currentJobId := none
    logMessages := [⟨.info, "Waiting for file..."⟩]
    refSet := false
    intervals := 0
    pollInflight := 0
    uploadPending := false }

/-- The helper `stopPolling` (page.tsx lines 506-511): clear the interval held in the ref
and null the ref. -/
def stopPolling (s : Dash) : Dash :=
  if s.refSet then { s with refSet := false, intervals := s.intervals - 1 } else s

/-- The body of the polling `useEffect` (page.tsx lines 514-539): when a job id
is set and the processing flag is up, create the interval and store it in the
ref. -/
def effectBody (s : Dash) : Dash :=
  if s.currentJobId.isSome && s.isProcessing then
    { s with refSet := true, intervals := s.intervals + 1 }
  else s

/-- The dependency tuple `[currentJobId, isProcessing]` of the polling effect
(page.tsx line 541). -/
def depsOf (s : Dash) : Option String × Bool := (s.currentJobId, s.isProcessing)

/-- React's re-run discipline for the polling effect: after a state change
whose dependency tuple differs from the previous render, the cleanup
(`stopPolling`, line 540) runs and then the effect body runs. -/
def syncEffect (old : Option String × Bool) (s : Dash) : Dash :=
  if depsOf s = old then s else effectBody (stopPolling s)

/-- The spec's job status abstraction (§4.4) derived from the component flags:
the code tracks uploading/processing with the single `isProcessing` flag, set
while the upload request is pending and while polling runs, and cleared on
every terminal path (whereupon the spec's table returns to Idle). -/
inductive JobStatus where
  | Idle
  | Uploading
  | Processing
  | Completed
  | Failed
deriving DecidableEq

/-- Derived status view of a component state. -/
def statusOf (s : Dash) : JobStatus :=
  if s.isProcessing then
    (if s.uploadPending then .Uploading else .Processing)
  else .Idle

/-- Which branch a poll callback run takes, observably: `reportCompleted` is
the terminal branch entered with a `success` last entry, `reportFailed` the
terminal branch entered with an `error` last entry or the catch handler, and
`continuePolling` any run that leaves the interval alive. -/
inductive PollOutcome where
  | continuePolling
  | reportCompleted
  | reportFailed
deriving DecidableEq

/-- The terminal-detection heuristic (page.tsx line 525): the last entry of
the just-received batch has kind `success` or `error` and its text contains
the literal substring `"Job"`. -/
def isTerminalSignal (lastLog : LogMessage) : Bool :=
  decide ((lastLog.type = .success ∨ lastLog.type = .error) ∧
          strIncludes lastLog.text "Job" = true)

/-- The `catch` handler of the poll callback (page.tsx lines 532-537): append
one synthetic error entry, stop polling, clear the processing flag.  The file
selections are not touched on this path. -/
def pollCatch (msg : String) (s : Dash) : Dash × PollOutcome :=
  (stopPolling
     { s with logMessages :=
                addLogs s.logMessages [⟨.error, "Failed to fetch logs: " ++ msg⟩],
              isProcessing := false },
   .reportFailed)

/-- Possible resolutions of one `GET /api/get_logs` request: a 2xx body with a
`logs` array, a non-2xx status (line 519 throws `Server error: ...`), or a
transport/parse failure whose message reaches the catch handler. -/
inductive PollResponse where
  | httpOk (logs : List LogMessage)
  | httpErr (statusText : String)
  | netErr (msg : String)
deriving DecidableEq

/-- The poll interval callback (page.tsx lines 517-537): on a 2xx response
with a non-empty `logs` array, append the batch and inspect the last entry of
the batch for the terminal signal; on an empty array do nothing; on non-2xx or
transport failure run the catch handler. -/
def pollCallback (resp : PollResponse) (s : Dash) : Dash × PollOutcome :=
  match resp with
  | .httpOk logs =>
    match logs.getLast? with
    | none => (s, .continuePolling)
    | some lastLog =>
      let s1 := { s with logMessages := addLogs s.logMessages logs }
      if isTerminalSignal lastLog then
        ({ stopPolling s1 with isProcessing := false,
                               bankFile := none, internalFile := none },
         if lastLog.type = .success then .reportCompleted else .reportFailed)
      else (s1, .continuePolling)
  | .httpErr statusText => pollCatch ("Server error: " ++ statusText) s
  | .netErr msg => pollCatch msg s

/-- The synchronous prefix of `handleUpload` (page.tsx lines 560-572), up to
issuing the `POST`.  The second component records whether a network call was
issued.  With no file, one error entry is logged and nothing else happens. -/
def handleUploadStart (file : Option String) (endpoint : String) (s : Dash) :
    Dash × Bool :=
  match file with
  | none =>
    ({ s with logMessages :=
                addLogs s.logMessages [⟨.error, "No file selected to upload."⟩] },
     false)
  | some f =>
    ({ s with isProcessing := true
              currentJobId := none
              logMessages :=
                addLogs [] [⟨.info, "Uploading " ++ f ++ " to " ++ endpoint ++ "..."⟩]
              uploadPending := true },
     true)

/-- The upload response body as the continuation reads it: the HTTP ok flag,
the optional `job_id` field, and the optional `detail` error payload
(`detail.message` when `detail` is an object, `detail` itself when it is a
string). -/
structure UploadResponse where
  ok : Bool
  jobId : Option String
  detailMessage : Option String
  detail : Option String
deriving DecidableEq

/-- Resolution of the upload `POST`: a parsed response, or a transport/JSON
failure whose message reaches the catch handler. -/
inductive UploadFetch where
  | resolved (r : UploadResponse)
  | failed (msg : String)
deriving DecidableEq

/-- JavaScript `x || y` on an optional string: an absent or empty string falls
through to the right operand. -/
def jsOrS (x : Option String) (y : String) : String :=
  match x with
  | some s => if s = "" then y else s
  | none => y

/-- The message of the error thrown on a non-ok upload response (page.tsx line
574): `data.detail?.message || data.detail || 'Upload failed'`. -/
def uploadErrMsg (r : UploadResponse) : String :=
  jsOrS r.detailMessage (jsOrS r.detail "Upload failed")

/-- The `catch` handler of `handleUpload` (page.tsx lines 577-583): log one
error entry, clear the processing flag, clear both file selections. -/
def uploadCatch (msg : String) (s : Dash) : Dash :=
  { s with logMessages :=
             addLogs s.logMessages [⟨.error, "Upload failed: " ++ msg⟩],
           isProcessing := false
           bankFile := none
           internalFile := none
           uploadPending := false }

/-- The continuation of `handleUpload` after the `POST` resolves (page.tsx
lines 572-583): on ok, append the success entry and set `currentJobId` to
whatever `data.job_id` holds (absent becomes `none` - no check is made); on a
non-ok status or a transport/JSON failure, run the catch handler. -/
def handleUploadResolve (f : UploadFetch) (s : Dash) : Dash :=
  match f with
  | .failed msg => uploadCatch msg s
  | .resolved r =>
    if r.ok then
      { s with logMessages :=
                 addLogs s.logMessages [⟨.success, "Upload complete. Processing..."⟩],
               currentJobId := r.jobId
               uploadPending := false }
    else uploadCatch (uploadErrMsg r) s

/-- The events that can hit the component: file selections (enabled only when
the `FileButton` is not disabled), upload button clicks (enabled only when the
`Button`'s `disabled={!file || isProcessing}` prop is false, page.tsx lines
644 and 659), resolutions of the pending upload, a tick of a live poll
interval, and resolutions of an in-flight poll request. -/
inductive Ev where
  | chooseBank (name : String)
  | chooseInternal (name : String)
  | clickUploadBank
  | clickUploadInternal
  | uploadResolve (f : UploadFetch)
  | pollTick
  | pollResolve (resp : PollResponse)
deriving DecidableEq

/-- One step of the component under an event; `none` when the event cannot
occur in the given state (disabled control, no pending request, no live
interval).  After each handler the polling effect is re-synchronised exactly
as React does. -/
def step (s : Dash) : Ev → Option Dash
  | .chooseBank name =>
    if s.isProcessing then none
    else some (syncEffect (depsOf s)
      { s with bankFile := some name
               logMessages := [⟨.info, "Bank file selected: " ++ name⟩]
               currentJobId := none })
  | .chooseInternal name =>
    if s.isProcessing then none
    else some (syncEffect (depsOf s)
      { s with internalFile := some name
               logMessages := [⟨.info, "Internal file selected: " ++ name⟩]
               currentJobId := none })
  | .clickUploadBank =>
    if s.bankFile.isNone || s.isProcessing then none
    else some (syncEffect (depsOf s) (handleUploadStart s.bankFile "/api/ingest" s).1)
  | .clickUploadInternal =>
    if s.internalFile.isNone || s.isProcessing then none
    else some (syncEffect (depsOf s)
      (handleUploadStart s.internalFile "/api/ingest_internal" s).1)
  | .uploadResolve f =>
    if s.uploadPending then some (syncEffect (depsOf s) (handleUploadResolve f s))
    else none
  | .pollTick =>
    if 0 < s.intervals then some { s with pollInflight := s.pollInflight + 1 }
    else none
  | .pollResolve resp =>
    if 0 < s.pollInflight then
      some (syncEffect (depsOf s)
        (pollCallback resp { s with pollInflight := s.pollInflight - 1 }).1)
    else none

/-- States reachable from the initial render. -/
inductive Reachable : Dash → Prop where
  | base : Reachable init
  | tr : ∀ {s e s'}, Reachable s → step s e = some s' → Reachable s'

/-- Run a list of events from a state, failing when one is not enabled. -/
def runEvents (s : Dash) : List Ev → Option Dash
  | [] => some s
  | e :: es =>
    match step s e with
    | some s' => runEvents s' es
    | none => none

/-- The DRE report query state of the component (page.tsx lines 478-481). -/
structure ReportState where
  reportYear : Option String
  reportMonth : Option String
  isReportLoading : Bool
  hasDreData : Bool
deriving DecidableEq

/-- A `GET /api/reports/monthly_dre` request with its query parameters. -/
structure ReportRequest where
  year : String
  month : String
deriving DecidableEq

/-- JavaScript falsiness of an optional string (`!x`): absent or empty. -/
def jsFalsyStr (x : Option String) : Bool :=
  match x with
  | none => true
  | some s => decide (s = "")

/-- The synchronous prefix of `handleGenerateReport` (page.tsx lines 587-595)
up to issuing the GET request: the only validation is the falsiness check on
the two selected values; the result records the new state, the issued request
if any, and whether the alert fired. -/
def handleGenerateReportStart (s : ReportState) :
    ReportState × Option ReportRequest × Bool :=
  if jsFalsyStr s.reportYear || jsFalsyStr s.reportMonth then
    (s, none, true)
  else
    ({ s with isReportLoading := true, hasDreData := false },
     some ⟨s.reportYear.getD "", s.reportMonth.getD ""⟩, false)

/-- The `value`s of the month `Select` options (page.tsx lines 674-681): the
only place in the source where the 1..12 restriction exists. -/
def monthOptionValues : List String :=
  ["1", "2", "3", "4", "5", "6", "7", "8", "9", "10", "11", "12"]

/-- A reachable state right after the bank upload button was clicked. -/
def procState : Dash :=
  (runEvents init [.chooseBank "f.pdf", .clickUploadBank]).getD init

/-- The state reached when the upload then resolves 2xx with no `job_id`
field in the body. -/
def cex7State : Dash :=
  (runEvents init [.chooseBank "f.pdf", .clickUploadBank,
    .uploadResolve (.resolved ⟨true, none, none, none⟩)]).getD init

/-- Events leading to two overlapping in-flight poll requests: a successful
upload starts the interval, and two ticks fire before any response comes
back. -/
def cex4Events : List Ev :=
  [.chooseBank "extrato.pdf", .clickUploadBank,
   .uploadResolve (.resolved ⟨true, some "job-1", none, none⟩),
   .pollTick, .pollTick]

/-- The state reached by `cex4Events`. -/
def cex4State : Dash := (runEvents init cex4Events).getD init

/-- The state one tick before `cex4State`: one poll request already in
flight. -/
def tick1State : Dash :=
  (runEvents init [.chooseBank "extrato.pdf", .clickUploadBank,
    .uploadResolve (.resolved ⟨true, some "job-1", none, none⟩),
    .pollTick]).getD init

section Lemmas

/-- Fact: `stopPolling` only touches the interval ref and the interval count. -/
@[simp] lemma stopPolling_refSet (s : Dash) : (stopPolling s).refSet = false := by
  cases hr : s.refSet <;> simp [stopPolling, hr]

@[simp] lemma stopPolling_isProcessing (s : Dash) :
    (stopPolling s).isProcessing = s.isProcessing := by
  cases hr : s.refSet <;> simp [stopPolling, hr]

@[simp] lemma stopPolling_logMessages (s : Dash) :
    (stopPolling s).logMessages = s.logMessages := by
  cases hr : s.refSet <;> simp [stopPolling, hr]

@[simp] lemma stopPolling_bankFile (s : Dash) :
    (stopPolling s).bankFile = s.bankFile := by
  cases hr : s.refSet <;> simp [stopPolling, hr]

@[simp] lemma stopPolling_internalFile (s : Dash) :
    (stopPolling s).internalFile = s.internalFile := by
  cases hr : s.refSet <;> simp [stopPolling, hr]

@[simp] lemma stopPolling_currentJobId (s : Dash) :
    (stopPolling s).currentJobId = s.currentJobId := by
  cases hr : s.refSet <;> simp [stopPolling, hr]

@[simp] lemma stopPolling_uploadPending (s : Dash) :
    (stopPolling s).uploadPending = s.uploadPending := by
  cases hr : s.refSet <;> simp [stopPolling, hr]

@[simp] lemma stopPolling_pollInflight (s : Dash) :
    (stopPolling s).pollInflight = s.pollInflight := by
  cases hr : s.refSet <;> simp [stopPolling, hr]

/-- Fact: `effectBody` only touches the interval ref and the interval count. -/
@[simp] lemma effectBody_isProcessing (s : Dash) :
    (effectBody s).isProcessing = s.isProcessing := by
  unfold effectBody; split <;> rfl

@[simp] lemma effectBody_currentJobId (s : Dash) :
    (effectBody s).currentJobId = s.currentJobId := by
  unfold effectBody; split <;> rfl

@[simp] lemma effectBody_logMessages (s : Dash) :
    (effectBody s).logMessages = s.logMessages := by
  unfold effectBody; split <;> rfl

@[simp] lemma effectBody_bankFile (s : Dash) :
    (effectBody s).bankFile = s.bankFile := by
  unfold effectBody; split <;> rfl

@[simp] lemma effectBody_internalFile (s : Dash) :
    (effectBody s).internalFile = s.internalFile := by
  unfold effectBody; split <;> rfl

@[simp] lemma effectBody_uploadPending (s : Dash) :
    (effectBody s).uploadPending = s.uploadPending := by
  unfold effectBody; split <;> rfl

@[simp] lemma effectBody_pollInflight (s : Dash) :
    (effectBody s).pollInflight = s.pollInflight := by
  unfold effectBody; split <;> rfl

/-- Fact: `syncEffect` only touches the interval ref and the interval count. -/
@[simp] lemma syncEffect_isProcessing (old : Option String × Bool) (s : Dash) :
    (syncEffect old s).isProcessing = s.isProcessing := by
  unfold syncEffect; split
  · rfl
  · simp

@[simp] lemma syncEffect_currentJobId (old : Option String × Bool) (s : Dash) :
    (syncEffect old s).currentJobId = s.currentJobId := by
  unfold syncEffect; split
  · rfl
  · simp

@[simp] lemma syncEffect_logMessages (old : Option String × Bool) (s : Dash) :
    (syncEffect old s).logMessages = s.logMessages := by
  unfold syncEffect; split
  · rfl
  · simp

@[simp] lemma syncEffect_bankFile (old : Option String × Bool) (s : Dash) :
    (syncEffect old s).bankFile = s.bankFile := by
  unfold syncEffect; split
  · rfl
  · simp

@[simp] lemma syncEffect_internalFile (old : Option String × Bool) (s : Dash) :
    (syncEffect old s).internalFile = s.internalFile := by
  unfold syncEffect; split
  · rfl
  · simp

@[simp] lemma syncEffect_uploadPending (old : Option String × Bool) (s : Dash) :
    (syncEffect old s).uploadPending = s.uploadPending := by
  unfold syncEffect; split
  · rfl
  · simp

@[simp] lemma syncEffect_pollInflight (old : Option String × Bool) (s : Dash) :
    (syncEffect old s).pollInflight = s.pollInflight := by
  unfold syncEffect; split
  · rfl
  · simp

/-- Fact: `addLogs` always appends exactly the batch elements whose text is not yet
present, in batch order. -/
lemma addLogs_eq (cur new : List LogMessage) :
    addLogs cur new = cur ++ new.filter (fun log => decide (log.text ∉ texts cur)) := by
  by_cases h : 0 < (new.filter (fun log => decide (log.text ∉ texts cur))).length
  · simp only [addLogs, if_pos h]
  · have h0 : new.filter (fun log => decide (log.text ∉ texts cur)) = [] :=
      List.length_eq_zero.mp (by omega)
    simp [addLogs, h0]

/-- Appending one entry with a fresh text extends the transcript by exactly
that entry. -/
lemma addLogs_single_fresh (cur : List LogMessage) (e : LogMessage)
    (h : e.text ∉ texts cur) : addLogs cur [e] = cur ++ [e] := by
  rw [addLogs_eq]
  simp [h]

end Lemmas

/-- C10: an `addLogs` call whose batch consists only of entries whose texts
are all already present leaves the transcript exactly unchanged (and with it
the derived seen-set of texts). -/
theorem claim_C10_frame (cur batch : List LogMessage)
    (h : ∀ e ∈ batch, e.text ∈ texts cur) :
    addLogs cur batch = cur := by
  have h0 : batch.filter (fun log => decide (log.text ∉ texts cur)) = [] := by
    rw [List.filter_eq_nil_iff]
    intro a ha
    simp [h a ha]
  rw [addLogs_eq, h0, List.append_nil]

/-- Witness for C10 at a concrete transcript and batch. -/
theorem claim_C10_witness :
    (∀ e ∈ [(⟨.error, "x"⟩ : LogMessage)], e.text ∈ texts [⟨.info, "x"⟩]) ∧
    addLogs [⟨.info, "x"⟩] [⟨.error, "x"⟩] = [⟨.info, "x"⟩] :=
  ⟨by decide, claim_C10_frame _ _ (by decide)⟩

/-- C8: calling `handleUpload` with an absent file logs a single validation
error entry, issues no network call, and leaves every piece of job state
(processing flag, job id, both file selections, pending upload, derived
status) unchanged. -/
theorem claim_C8_no_file_guard (s : Dash) (endpoint : String) :
    handleUploadStart none endpoint s =
      ({ s with logMessages :=
                  addLogs s.logMessages [⟨.error, "No file selected to upload."⟩] },
       false) ∧
    (handleUploadStart none endpoint s).2 = false ∧
    (handleUploadStart none endpoint s).1.isProcessing = s.isProcessing ∧
    (handleUploadStart none endpoint s).1.currentJobId = s.currentJobId ∧
    (handleUploadStart none endpoint s).1.bankFile = s.bankFile ∧
    (handleUploadStart none endpoint s).1.internalFile = s.internalFile ∧
    (handleUploadStart none endpoint s).1.uploadPending = s.uploadPending ∧
    (handleUploadStart none endpoint s).1.refSet = s.refSet ∧
    (handleUploadStart none endpoint s).1.intervals = s.intervals ∧
    statusOf (handleUploadStart none endpoint s).1 = statusOf s :=
  ⟨rfl, rfl, rfl, rfl, rfl, rfl, rfl, rfl, rfl, rfl⟩

/-- Counterexample to C2: a single `append` of a batch holding two entries
with the same text (and different kinds) puts both into the transcript, since
the filter only consults the texts present before the batch - so the
transcript does contain two entries with identical text. -/
theorem claim_C2_counterexample :
    applyBatches [[⟨.info, "a"⟩, ⟨.success, "a"⟩]] =
      [⟨.info, "a"⟩, ⟨.success, "a"⟩] ∧
    ¬ (texts (applyBatches [[⟨.info, "a"⟩, ⟨.success, "a"⟩]])).Nodup := by
  constructor
  · decide
  · decide

/-- Unfolding of the poll callback on a 2xx response with a non-empty batch:
everything after the `append` is decided by the last entry of the batch. -/
lemma pollCallback_httpOk_eq (s : Dash) (logs : List LogMessage) (e : LogMessage)
    (hlast : logs.getLast? = some e) :
    pollCallback (.httpOk logs) s =
      (if isTerminalSignal e then
        ({ stopPolling { s with logMessages := addLogs s.logMessages logs } with
             isProcessing := false, bankFile := none, internalFile := none },
         if e.type = .success then PollOutcome.reportCompleted else .reportFailed)
       else ({ s with logMessages := addLogs s.logMessages logs },
             .continuePolling)) := by
  simp only [pollCallback, hlast]

/-- A last entry that is not a terminal signal, spelled as the claim spells
it. -/
lemma not_terminal_of_kind_or_text (e : LogMessage)
    (h : e.type = .info ∨ e.type = .server ∨ strIncludes e.text "Job" = false) :
    isTerminalSignal e = false := by
  simp only [isTerminalSignal, decide_eq_false_iff_not]
  rintro ⟨hk, hj⟩
  rcases h with h1 | h1 | h1 <;> rcases hk with h2 | h2 <;>
    first
      | (rw [h1] at h2; cases h2)
      | (rw [h1] at hj; cases hj)

/-- C1: on a successful poll with a non-empty batch, after the batch is
appended the decision is made from the last entry of the just-received batch
alone: a `success`/`error` kind whose text contains `"Job"` stops polling and
takes the terminal branch (`reportCompleted` for `success`, `reportFailed` for
`error`); a last entry of kind `info`/`server` or without `"Job"` leaves the
processing flag and the interval untouched and keeps polling.  The third
conjunct states that the decision agrees for any two batches sharing the same
last entry. -/
theorem claim_C1_terminal_by_last_entry (s : Dash) (logs : List LogMessage)
    (e : LogMessage) (hlast : logs.getLast? = some e) :
    ((e.type = .success ∨ e.type = .error) → strIncludes e.text "Job" = true →
      ((pollCallback (.httpOk logs) s).1.refSet = false ∧
       (pollCallback (.httpOk logs) s).1.isProcessing = false ∧
       (pollCallback (.httpOk logs) s).1.logMessages = addLogs s.logMessages logs ∧
       (pollCallback (.httpOk logs) s).2 =
         (if e.type = .success then .reportCompleted else .reportFailed))) ∧
    ((e.type = .info ∨ e.type = .server ∨ strIncludes e.text "Job" = false) →
      ((pollCallback (.httpOk logs) s).1.isProcessing = s.isProcessing ∧
       (pollCallback (.httpOk logs) s).1.refSet = s.refSet ∧
       (pollCallback (.httpOk logs) s).1.intervals = s.intervals ∧
       (pollCallback (.httpOk logs) s).1.logMessages = addLogs s.logMessages logs ∧
       (pollCallback (.httpOk logs) s).2 = .continuePolling)) ∧
    (∀ logs2, logs2.getLast? = some e →
      ((pollCallback (.httpOk logs) s).2 = (pollCallback (.httpOk logs2) s).2 ∧
       (pollCallback (.httpOk logs) s).1.refSet =
         (pollCallback (.httpOk logs2) s).1.refSet ∧
       (pollCallback (.httpOk logs) s).1.isProcessing =
         (pollCallback (.httpOk logs2) s).1.isProcessing)) := by
  have key := pollCallback_httpOk_eq s logs e hlast
  refine ⟨?_, ?_, ?_⟩
  · intro hkind hjob
    have ht : isTerminalSignal e = true := by
      simp only [isTerminalSignal, decide_eq_true_eq]
      exact ⟨hkind, hjob⟩
    rw [key, if_pos ht]
    exact ⟨stopPolling_refSet _, rfl, stopPolling_logMessages _, rfl⟩
  · intro hnt
    have hf : isTerminalSignal e = false := not_terminal_of_kind_or_text e hnt
    rw [key, hf]
    exact ⟨rfl, rfl, rfl, rfl, rfl⟩
  · intro logs2 hlast2
    have key2 := pollCallback_httpOk_eq s logs2 e hlast2
    rw [key, key2]
    by_cases ht : isTerminalSignal e = true
    · rw [if_pos ht, if_pos ht]
      exact ⟨rfl, by simp, rfl⟩
    · rw [if_neg ht, if_neg ht]
      exact ⟨rfl, rfl, rfl⟩

/-- Witness for C1: a batch ending in `{kind: success, text: "Job 42
complete"}` stops the poller and takes the completed branch. -/
theorem claim_C1_witness :
    ([(⟨.success, "Job 42 complete"⟩ : LogMessage)].getLast? =
       some ⟨.success, "Job 42 complete"⟩) ∧
    ((pollCallback (.httpOk [⟨.success, "Job 42 complete"⟩]) init).1.refSet = false ∧
     (pollCallback (.httpOk [⟨.success, "Job 42 complete"⟩]) init).1.isProcessing = false ∧
     (pollCallback (.httpOk [⟨.success, "Job 42 complete"⟩]) init).1.logMessages =
       addLogs init.logMessages [⟨.success, "Job 42 complete"⟩] ∧
     (pollCallback (.httpOk [⟨.success, "Job 42 complete"⟩]) init).2 =
       (if (⟨.success, "Job 42 complete"⟩ : LogMessage).type = .success
        then .reportCompleted else .reportFailed)) :=
  ⟨by decide,
   (claim_C1_terminal_by_last_entry init [⟨.success, "Job 42 complete"⟩]
      ⟨.success, "Job 42 complete"⟩ (by decide)).1 (Or.inl rfl) (by decide)⟩

/-- C5: a poll that fails (network error or non-2xx status, both of which
reach the catch handler) appends exactly one synthetic error entry, clears the
interval and the ref, clears the processing flag, and takes the failed branch;
and once no interval is live, no further poll tick can fire, so the failure is
terminal for the session. -/
theorem claim_C5_poll_failure_terminal (s : Dash) (msg : String)
    (hfresh : ("Failed to fetch logs: " ++ msg) ∉ texts s.logMessages)
    (hinv : s.intervals = if s.refSet then 1 else 0) :
    (pollCatch msg s).2 = .reportFailed ∧
    (pollCatch msg s).1.logMessages =
      s.logMessages ++ [⟨.error, "Failed to fetch logs: " ++ msg⟩] ∧
    (pollCatch msg s).1.isProcessing = false ∧
    (pollCatch msg s).1.refSet = false ∧
    (pollCatch msg s).1.intervals = 0 ∧
    (∀ st, pollCallback (.httpErr st) s = pollCatch ("Server error: " ++ st) s) ∧
    (∀ m, pollCallback (.netErr m) s = pollCatch m s) ∧
    (∀ t : Dash, t.intervals = 0 → step t .pollTick = none) := by
  refine ⟨rfl, ?_, ?_, ?_, ?_, fun _ => rfl, fun _ => rfl, ?_⟩
  · simp only [pollCatch, stopPolling_logMessages]
    exact addLogs_single_fresh _ _ hfresh
  · simp [pollCatch]
  · exact stopPolling_refSet _
  · cases hr : s.refSet
    · have h0 : s.intervals = 0 := by simp [hinv, hr]
      simp [pollCatch, stopPolling, hr, h0]
    · have h1 : s.intervals = 1 := by simp [hinv, hr]
      simp [pollCatch, stopPolling, hr, h1]
  · intro t ht
    simp [step, ht]

/-- Witness for C5 at the initial transcript with a network failure. -/
theorem claim_C5_witness :
    (("Failed to fetch logs: NetworkError") ∉ texts init.logMessages) ∧
    (init.intervals = if init.refSet then 1 else 0) ∧
    ((pollCatch "NetworkError" init).2 = .reportFailed ∧
     (pollCatch "NetworkError" init).1.logMessages =
       init.logMessages ++ [⟨.error, "Failed to fetch logs: " ++ "NetworkError"⟩] ∧
     (pollCatch "NetworkError" init).1.isProcessing = false ∧
     (pollCatch "NetworkError" init).1.refSet = false ∧
     (pollCatch "NetworkError" init).1.intervals = 0 ∧
     (∀ st, pollCallback (.httpErr st) init = pollCatch ("Server error: " ++ st) init) ∧
     (∀ m, pollCallback (.netErr m) init = pollCatch m init) ∧
     (∀ t : Dash, t.intervals = 0 → step t .pollTick = none)) :=
  ⟨by decide, by decide,
   claim_C5_poll_failure_terminal init "NetworkError" (by decide) (by decide)⟩

/-- C6: an upload whose `POST` resolves with a non-ok status runs the catch
handler with the thrown message `data.detail?.message || data.detail ||
'Upload failed'`: the processing flag is cleared (derived status `Idle`, not
`Processing`), both file selections are cleared, and one error entry carrying
the server-provided message (or the generic fallback) is appended.  A
transport or JSON-parse failure runs the same catch handler with the raised
message. -/
theorem claim_C6_upload_failure (s : Dash) (r : UploadResponse)
    (h : r.ok = false) :
    handleUploadResolve (.resolved r) s = uploadCatch (uploadErrMsg r) s ∧
    (uploadCatch (uploadErrMsg r) s).isProcessing = false ∧
    statusOf (uploadCatch (uploadErrMsg r) s) = .Idle ∧
    (uploadCatch (uploadErrMsg r) s).bankFile = none ∧
    (uploadCatch (uploadErrMsg r) s).internalFile = none ∧
    (uploadCatch (uploadErrMsg r) s).logMessages =
      addLogs s.logMessages [⟨.error, "Upload failed: " ++ uploadErrMsg r⟩] ∧
    (∀ m, r.detailMessage = some m → m ≠ "" → uploadErrMsg r = m) ∧
    (r.detailMessage = none → r.detail = none → uploadErrMsg r = "Upload failed") ∧
    (∀ msg, handleUploadResolve (.failed msg) s = uploadCatch msg s) := by
  refine ⟨?_, rfl, ?_, rfl, rfl, rfl, ?_, ?_, fun _ => rfl⟩
  · simp [handleUploadResolve, h]
  · simp [statusOf, uploadCatch]
  · intro m hm hne
    simp [uploadErrMsg, jsOrS, hm, hne]
  · intro h1 h2
    simp [uploadErrMsg, jsOrS, h1, h2]

/-- Witness for C6 with a server-provided `detail` message. -/
theorem claim_C6_witness :
    ((⟨false, none, some "quota exceeded", none⟩ : UploadResponse).ok = false) ∧
    (handleUploadResolve (.resolved ⟨false, none, some "quota exceeded", none⟩) init =
       uploadCatch (uploadErrMsg ⟨false, none, some "quota exceeded", none⟩) init ∧
     (uploadCatch (uploadErrMsg ⟨false, none, some "quota exceeded", none⟩) init).isProcessing
        = false ∧
     statusOf (uploadCatch (uploadErrMsg ⟨false, none, some "quota exceeded", none⟩) init)
        = .Idle ∧
     (uploadCatch (uploadErrMsg ⟨false, none, some "quota exceeded", none⟩) init).bankFile
        = none ∧
     (uploadCatch (uploadErrMsg ⟨false, none, some "quota exceeded", none⟩) init).internalFile
        = none ∧
     (uploadCatch (uploadErrMsg ⟨false, none, some "quota exceeded", none⟩) init).logMessages
        = addLogs init.logMessages
            [⟨.error, "Upload failed: " ++
                uploadErrMsg ⟨false, none, some "quota exceeded", none⟩⟩] ∧
     (∀ m, (⟨false, none, some "quota exceeded", none⟩ : UploadResponse).detailMessage
             = some m → m ≠ "" →
           uploadErrMsg ⟨false, none, some "quota exceeded", none⟩ = m) ∧
     ((⟨false, none, some "quota exceeded", none⟩ : UploadResponse).detailMessage = none →
      (⟨false, none, some "quota exceeded", none⟩ : UploadResponse).detail = none →
      uploadErrMsg ⟨false, none, some "quota exceeded", none⟩ = "Upload failed") ∧
     (∀ msg, handleUploadResolve (.failed msg) init = uploadCatch msg init)) :=
  ⟨rfl, claim_C6_upload_failure init ⟨false, none, some "quota exceeded", none⟩ rfl⟩

/-- Counterexample to C9: `handleGenerateReport` run with month `13` selected
issues the GET request with `month=13` and shows no alert - the 1..12
validation the claim describes does not exist in the handler. -/
theorem claim_C9_counterexample :
    (handleGenerateReportStart ⟨some "2024", some "13", false, false⟩).2.1 =
      some ⟨"2024", "13"⟩ ∧
    (handleGenerateReportStart ⟨some "2024", some "13", false, false⟩).2.2 = false := by
  constructor
  · decide
  · decide

/-- C9 as amended: the handler validates only that the two selections are
non-null and non-empty - when either is falsy it alerts and issues no network
call, otherwise it issues the request with the selected values unchecked; the
1..12 restriction exists only in the month `Select`'s option list, which does
not offer `"13"`. -/
theorem claim_C9_amended (s : ReportState) (y m : String) :
    ((handleGenerateReportStart s).2.1 = none ↔
      (jsFalsyStr s.reportYear || jsFalsyStr s.reportMonth) = true) ∧
    ((jsFalsyStr s.reportYear || jsFalsyStr s.reportMonth) = true →
      handleGenerateReportStart s = (s, none, true)) ∧
    (s.reportYear = some y → s.reportMonth = some m → y ≠ "" → m ≠ "" →
      (handleGenerateReportStart s).2.1 = some ⟨y, m⟩) ∧
    "13" ∉ monthOptionValues := by
  refine ⟨?_, ?_, ?_, by decide⟩
  · by_cases hg : (jsFalsyStr s.reportYear || jsFalsyStr s.reportMonth) = true
    · simp [handleGenerateReportStart, hg]
    · simp [handleGenerateReportStart, hg]
  · intro hg
    simp [handleGenerateReportStart, hg]
  · intro hy hm hyne hmne
    simp [handleGenerateReportStart, jsFalsyStr, hy, hm, hyne, hmne]

/-- Witness for C9 as amended: a valid period issues the request. -/
theorem claim_C9_amended_witness :
    (handleGenerateReportStart ⟨some "2024", some "7", false, false⟩).2.1 =
      some ⟨"2024", "7"⟩ :=
  (claim_C9_amended ⟨some "2024", some "7", false, false⟩ "2024" "7").2.2.1
    rfl rfl (by decide) (by decide)

/-- Fact: `stopPolling` re-establishes the interval accounting invariant. -/
lemma stopPolling_inv (s : Dash) (h : s.intervals = if s.refSet then 1 else 0) :
    (stopPolling s).intervals = if (stopPolling s).refSet then 1 else 0 := by
  cases hr : s.refSet <;> simp [stopPolling, hr, h]

/-- Fact: `effectBody` applied to a state with no ref set creates at most one
interval. -/
lemma effectBody_inv (s : Dash) (h : s.intervals = if s.refSet then 1 else 0)
    (hr : s.refSet = false) :
    (effectBody s).intervals = if (effectBody s).refSet then 1 else 0 := by
  unfold effectBody
  split
  · simp [h, hr]
  · simp [h]

/-- The React effect discipline preserves the interval accounting
invariant. -/
lemma syncEffect_inv (old : Option String × Bool) (s : Dash)
    (h : s.intervals = if s.refSet then 1 else 0) :
    (syncEffect old s).intervals = if (syncEffect old s).refSet then 1 else 0 := by
  unfold syncEffect
  split
  · exact h
  · exact effectBody_inv _ (stopPolling_inv s h) (stopPolling_refSet s)

/-- The upload continuation never touches the interval resources. -/
lemma handleUploadResolve_refSet (f : UploadFetch) (s : Dash) :
    (handleUploadResolve f s).refSet = s.refSet := by
  cases f with
  | failed m => rfl
  | resolved r =>
    simp only [handleUploadResolve]
    split
    · rfl
    · rfl

/-- The upload continuation never touches the interval count. -/
lemma handleUploadResolve_intervals (f : UploadFetch) (s : Dash) :
    (handleUploadResolve f s).intervals = s.intervals := by
  cases f with
  | failed m => rfl
  | resolved r =>
    simp only [handleUploadResolve]
    split
    · rfl
    · rfl

/-- The synchronous upload prefix never touches the interval resources. -/
lemma handleUploadStart_refSet (file : Option String) (ep : String) (s : Dash) :
    (handleUploadStart file ep s).1.refSet = s.refSet := by
  cases file <;> rfl

/-- The synchronous upload prefix never touches the interval count. -/
lemma handleUploadStart_intervals (file : Option String) (ep : String) (s : Dash) :
    (handleUploadStart file ep s).1.intervals = s.intervals := by
  cases file <;> rfl

/-- The poll callback preserves the interval accounting invariant. -/
lemma pollCallback_inv (resp : PollResponse) (s : Dash)
    (h : s.intervals = if s.refSet then 1 else 0) :
    (pollCallback resp s).1.intervals =
      if (pollCallback resp s).1.refSet then 1 else 0 := by
  cases resp with
  | httpOk logs =>
    rcases hl : logs.getLast? with _ | e
    · simp only [pollCallback, hl]
      exact h
    · rw [pollCallback_httpOk_eq s logs e hl]
      split
    -- terminal branch: the result's ref and count are those of stopPolling
      · exact stopPolling_inv _ h
      · exact h
  | httpErr st => exact stopPolling_inv _ h
  | netErr m => exact stopPolling_inv _ h

/-- Every step of the component preserves the interval accounting
invariant: an interval is only ever created by the effect body, which always
runs after the cleanup. -/
lemma step_preserves_inv {s : Dash} {e : Ev} {s' : Dash}
    (h : s.intervals = if s.refSet then 1 else 0) (hs : step s e = some s') :
    s'.intervals = if s'.refSet then 1 else 0 := by
  cases e with
  | chooseBank name =>
    simp only [step] at hs
    split at hs
    · exact Option.noConfusion hs
    · injection hs with h2
      subst h2
      exact syncEffect_inv _ _ h
  | chooseInternal name =>
    simp only [step] at hs
    split at hs
    · exact Option.noConfusion hs
    · injection hs with h2
      subst h2
      exact syncEffect_inv _ _ h
  | clickUploadBank =>
    simp only [step] at hs
    split at hs
    · exact Option.noConfusion hs
    · injection hs with h2
      subst h2
      refine syncEffect_inv _ _ ?_
      rw [handleUploadStart_refSet, handleUploadStart_intervals]
      exact h
  | clickUploadInternal =>
    simp only [step] at hs
    split at hs
    · exact Option.noConfusion hs
    · injection hs with h2
      subst h2
      refine syncEffect_inv _ _ ?_
      rw [handleUploadStart_refSet, handleUploadStart_intervals]
      exact h
  | uploadResolve f =>
    simp only [step] at hs
    split at hs
    · injection hs with h2
      subst h2
      refine syncEffect_inv _ _ ?_
      rw [handleUploadResolve_refSet, handleUploadResolve_intervals]
      exact h
    · exact Option.noConfusion hs
  | pollTick =>
    simp only [step] at hs
    split at hs
    · injection hs with h2
      subst h2
      exact h
    · exact Option.noConfusion hs
  | pollResolve resp =>
    simp only [step] at hs
    split at hs
    · injection hs with h2
      subst h2
      exact syncEffect_inv _ _ (pollCallback_inv resp _ h)
    · exact Option.noConfusion hs

/-- Every reachable state satisfies the interval accounting invariant. -/
lemma reachable_inv {s : Dash} (h : Reachable s) :
    s.intervals = if s.refSet then 1 else 0 := by
  induction h with
  | base => decide
  | tr h1 h2 ih => exact step_preserves_inv ih h2

/-- A successful run of an event list from a reachable state ends reachable. -/
lemma reachable_runEvents {s s' : Dash} (evs : List Ev)
    (h : Reachable s) (hr : runEvents s evs = some s') : Reachable s' := by
  induction evs generalizing s with
  | nil =>
    simp only [runEvents] at hr
    injection hr with h2
    subst h2
    exact h
  | cons e es ih =>
    simp only [runEvents] at hr
    split at hr
    · next t hstep => exact ih (Reachable.tr h hstep) hr
    · exact Option.noConfusion hr

/-- The concrete post-click state is reachable. -/
lemma reachable_procState : Reachable procState :=
  reachable_runEvents [.chooseBank "f.pdf", .clickUploadBank]
    Reachable.base (by decide)

/-- C3: in every reachable state at most one poll interval is live, and while
a job is active (derived status `Uploading` or `Processing`) every further
submit attempt - and every file selection - is a rejected no-op: the guarding
`disabled={!file || isProcessing}` prop makes the event impossible, and
nothing is queued. -/
theorem claim_C3_single_active_job (s : Dash) (h : Reachable s) :
    s.intervals ≤ 1 ∧
    ((statusOf s = .Uploading ∨ statusOf s = .Processing) →
      (step s .clickUploadBank = none ∧
       step s .clickUploadInternal = none ∧
       (∀ name, step s (.chooseBank name) = none) ∧
       (∀ name, step s (.chooseInternal name) = none))) := by
  constructor
  · rw [reachable_inv h]
    split <;> omega
  · intro hst
    have hp : s.isProcessing = true := by
      by_contra hp
      have hp' : s.isProcessing = false := by
        revert hp
        cases s.isProcessing <;> simp
      rcases hst with h1 | h1 <;> simp [statusOf, hp'] at h1
    exact ⟨by simp [step, hp], by simp [step, hp],
           fun name => by simp [step, hp], fun name => by simp [step, hp]⟩

/-- Witness for C3 at the reachable state just after the upload click. -/
theorem claim_C3_witness :
    procState.intervals ≤ 1 ∧
    ((statusOf procState = .Uploading ∨ statusOf procState = .Processing) →
      (step procState .clickUploadBank = none ∧
       step procState .clickUploadInternal = none ∧
       (∀ name, step procState (.chooseBank name) = none) ∧
       (∀ name, step procState (.chooseInternal name) = none))) :=
  claim_C3_single_active_job procState reachable_procState

/-- Two in-flight poll requests for the same job are reachable: the callback
of `setInterval` issues a fetch on every tick with no in-flight guard. -/
lemma overlapping_polls_reachable :
    Reachable cex4State ∧ 2 ≤ cex4State.pollInflight :=
  ⟨reachable_runEvents cex4Events Reachable.base (by decide), by decide⟩

/-- Counterexample to C4: a reachable state carries two concurrent in-flight
log-fetch requests for the same job - the tick is neither skipped nor limited
to one queued request. -/
theorem claim_C4_counterexample :
    Reachable cex4State ∧ 2 ≤ cex4State.pollInflight :=
  overlapping_polls_reachable

/-- C4 as amended: every tick of a live interval unconditionally issues one
more log-fetch request, whatever the number already in flight (the interval
resources are untouched), and consequently a reachable state with two
concurrent in-flight requests for the same job exists. -/
theorem claim_C4_amended (s s' : Dash) (h : step s .pollTick = some s') :
    s'.pollInflight = s.pollInflight + 1 ∧
    s'.intervals = s.intervals ∧
    s'.refSet = s.refSet ∧
    (∃ t : Dash, Reachable t ∧ 2 ≤ t.pollInflight) := by
  simp only [step] at h
  split at h
  · injection h with h2
    subst h2
    exact ⟨rfl, rfl, rfl,
      cex4State, overlapping_polls_reachable.1, overlapping_polls_reachable.2⟩
  · exact Option.noConfusion h

/-- Witness for C4 as amended at the concrete one-in-flight state. -/
theorem claim_C4_amended_witness :
    (step tick1State .pollTick = some cex4State) ∧
    (cex4State.pollInflight = tick1State.pollInflight + 1 ∧
     cex4State.intervals = tick1State.intervals ∧
     cex4State.refSet = tick1State.refSet ∧
     (∃ t : Dash, Reachable t ∧ 2 ≤ t.pollInflight)) :=
  ⟨by decide, claim_C4_amended tick1State cex4State (by decide)⟩

/-- Counterexample to C7: after a 2xx upload response whose body has no
`job_id` field, the component raises no error at all: the success entry is
appended, no error entry exists, the job id stays unset, the poll interval
never starts, and the derived status remains `Processing` - there is no
`ProtocolError`. -/
theorem claim_C7_counterexample :
    Reachable cex7State ∧
    step procState (.uploadResolve (.resolved ⟨true, none, none, none⟩)) =
      some cex7State ∧
    statusOf cex7State = .Processing ∧
    cex7State.currentJobId = none ∧
    cex7State.intervals = 0 ∧
    cex7State.refSet = false ∧
    (cex7State.logMessages.filter fun e => decide (e.type = .error)) = [] ∧
    cex7State.logMessages =
      [⟨.info, "Uploading f.pdf to /api/ingest..."⟩,
       ⟨.success, "Upload complete. Processing..."⟩] := by
  refine ⟨?_, by decide, by decide, by decide, by decide, by decide, by decide,
          by decide⟩
  exact reachable_runEvents
    [.chooseBank "f.pdf", .clickUploadBank,
     .uploadResolve (.resolved ⟨true, none, none, none⟩)]
    Reachable.base (by decide)

/-- C7 as amended: on a 2xx response the continuation sets `currentJobId` to
whatever the body's `job_id` field holds (absent becomes none, with no check
and no error) and appends the success entry; when the field is absent and no
job was set, the polling effect never starts and the processing flag stays
up - the job hangs in `Processing` instead of failing with a
`ProtocolError`. -/
theorem claim_C7_amended (s : Dash) (r : UploadResponse) (h : r.ok = true) :
    (handleUploadResolve (.resolved r) s).currentJobId = r.jobId ∧
    (handleUploadResolve (.resolved r) s).logMessages =
      addLogs s.logMessages [⟨.success, "Upload complete. Processing..."⟩] ∧
    (handleUploadResolve (.resolved r) s).isProcessing = s.isProcessing ∧
    (s.currentJobId = none → r.jobId = none →
      ∀ s', step s (.uploadResolve (.resolved r)) = some s' →
        s'.refSet = s.refSet ∧ s'.intervals = s.intervals ∧
        s'.isProcessing = s.isProcessing ∧ s'.currentJobId = none) := by
  have hres : handleUploadResolve (.resolved r) s =
      { s with logMessages :=
                 addLogs s.logMessages [⟨.success, "Upload complete. Processing..."⟩],
               currentJobId := r.jobId
               uploadPending := false } := by
    simp [handleUploadResolve, h]
  refine ⟨by rw [hres], by rw [hres], by rw [hres], ?_⟩
  intro hj hrj s' hs
  have p1 : (handleUploadResolve (.resolved r) s).refSet = s.refSet :=
    handleUploadResolve_refSet _ _
  have p2 : (handleUploadResolve (.resolved r) s).intervals = s.intervals :=
    handleUploadResolve_intervals _ _
  have p3 : (handleUploadResolve (.resolved r) s).isProcessing = s.isProcessing := by
    rw [hres]
  have p4 : (handleUploadResolve (.resolved r) s).currentJobId = r.jobId := by
    rw [hres]
  have hdeps : depsOf (handleUploadResolve (.resolved r) s) = depsOf s := by
    simp only [depsOf, p3, p4, hrj, hj]
  simp only [step] at hs
  split at hs
  · injection hs with h2
    subst h2
    unfold syncEffect
    rw [if_pos hdeps]
    exact ⟨p1, p2, p3, p4.trans hrj⟩
  · exact Option.noConfusion hs

/-- Witness for C7 as amended at the concrete missing-field response. -/
theorem claim_C7_amended_witness :
    cex7State.refSet = procState.refSet ∧
    cex7State.intervals = procState.intervals ∧
    cex7State.isProcessing = procState.isProcessing ∧
    cex7State.currentJobId = none :=
  (claim_C7_amended procState ⟨true, none, none, none⟩ rfl).2.2.2
    (by decide) rfl cex7State (by decide)

/-- Fact: `dedupFrom` only depends on the membership of the seen-set. -/
lemma dedupFrom_congr : ∀ (l : List LogMessage) {s1 s2 : List String},
    (∀ t, t ∈ s1 ↔ t ∈ s2) → dedupFrom s1 l = dedupFrom s2 l := by
  intro l
  induction l with
  | nil => intro s1 s2 h; rfl
  | cons e rest ih =>
    intro s1 s2 h
    simp only [dedupFrom]
    by_cases he : e.text ∈ s1
    · rw [if_pos he, if_pos ((h e.text).mp he)]
      exact ih h
    · rw [if_neg he, if_neg fun hx => he ((h e.text).mpr hx)]
      have h' : ∀ t, t ∈ e.text :: s1 ↔ t ∈ e.text :: s2 := by
        intro t
        simp only [List.mem_cons]
        exact or_congr Iff.rfl (h t)
      rw [ih h']

/-- Splitting a dedup run at a batch boundary, when the batch itself has
pairwise distinct texts. -/
lemma dedupFrom_append : ∀ (b l : List LogMessage) (seen : List String),
    (texts b).Nodup →
    dedupFrom seen (b ++ l) =
      b.filter (fun e => decide (e.text ∉ seen)) ++
        dedupFrom (texts (b.filter fun e => decide (e.text ∉ seen)) ++ seen) l := by
  intro b
  induction b with
  | nil =>
    intro l seen hb
    simp [texts]
  | cons e b' ih =>
    intro l seen hb
    have hb' : e.text ∉ texts b' ∧ (texts b').Nodup := by
      have := hb
      simp only [texts, List.map_cons, List.nodup_cons] at this
      exact ⟨by simpa [texts] using this.1, this.2⟩
    by_cases he : e.text ∈ seen
    · simp only [List.cons_append, dedupFrom, if_pos he, List.append_eq]
      rw [ih l seen hb'.2]
      simp [List.filter_cons, he]
    · have hfcong : b'.filter (fun x => decide (x.text ∉ e.text :: seen)) =
          b'.filter (fun x => decide (x.text ∉ seen)) := by
        apply List.filter_congr
        intro x hx
        have hne : x.text ≠ e.text := by
          intro hEq
          exact hb'.1 (hEq ▸ List.mem_map_of_mem LogMessage.text hx)
        simp [List.mem_cons, hne]
      have hfe : (e :: b').filter (fun x => decide (x.text ∉ seen)) =
          e :: b'.filter (fun x => decide (x.text ∉ seen)) := by
        simp [List.filter_cons, he]
      simp only [List.cons_append, dedupFrom, if_neg he, List.append_eq]
      rw [ih l (e.text :: seen) hb'.2, hfcong, hfe]
      simp only [texts, List.map_cons, List.cons_append]
      congr 2
      apply dedupFrom_congr
      intro t
      simp only [List.mem_append, List.mem_cons]
      tauto

/-- Folding the code's `addLogs` over a sequence of batches with internally
distinct texts computes exactly the spec's first-wins dedup of the
concatenated stream, appended after the starting transcript. -/
lemma foldl_addLogs_eq : ∀ (bs : List (List LogMessage)) (cur : List LogMessage),
    (∀ b ∈ bs, (texts b).Nodup) →
    bs.foldl addLogs cur = cur ++ dedupFrom (texts cur) (joinAll bs) := by
  intro bs
  induction bs with
  | nil => intro cur h; simp [joinAll, dedupFrom]
  | cons b bs ih =>
    intro cur h
    have hb : (texts b).Nodup := h b (List.mem_cons_self b bs)
    have hbs : ∀ x ∈ bs, (texts x).Nodup := fun x hx => h x (List.mem_cons_of_mem b hx)
    simp only [List.foldl_cons, joinAll]
    rw [ih (addLogs cur b) hbs, addLogs_eq,
        dedupFrom_append b (joinAll bs) (texts cur) hb, List.append_assoc]
    congr 2
    apply dedupFrom_congr
    intro t
    simp only [texts, List.map_append, List.mem_append]
    tauto

/-- A dedup run produces pairwise distinct texts, all of them outside the
seen-set it started from. -/
lemma dedupFrom_nodup : ∀ (l : List LogMessage) (seen : List String),
    (texts (dedupFrom seen l)).Nodup ∧
    ∀ t ∈ texts (dedupFrom seen l), t ∉ seen := by
  intro l
  induction l with
  | nil =>
    intro seen
    constructor
    · simp [dedupFrom, texts]
    · simp [dedupFrom, texts]
  | cons e rest ih =>
    intro seen
    by_cases he : e.text ∈ seen
    · simpa [dedupFrom, he] using ih seen
    · have ihh := ih (e.text :: seen)
      constructor
      · simp only [dedupFrom, if_neg he, texts, List.map_cons, List.nodup_cons]
        constructor
        · intro hmem
          exact ihh.2 e.text hmem (List.mem_cons_self _ _)
        · exact ihh.1
      · intro t ht
        simp only [dedupFrom, if_neg he, texts, List.map_cons, List.mem_cons] at ht
        rcases ht with rfl | ht
        · exact he
        · exact fun hseen => ihh.2 t ht (List.mem_cons_of_mem _ hseen)

/-- C2 as amended: provided each individual batch contains no two entries
with the same text, the transcript built by any sequence of `append`s from
empty equals the spec's first-occurrence-wins dedup (by text, ignoring kind)
of the concatenated stream - hence it has no duplicate texts, keeps entries
in first-seen order, and drops an entry exactly when its text was seen
before.  The last conjunct holds of every single `append`: it only ever
appends (in batch order) the entries whose text is not yet present, so no
appended entry is removed or reordered.  (Without the per-batch hypothesis
the claim fails, see the counterexample: a batch repeating a text inside
itself is appended wholesale.) -/
theorem claim_C2_amended (bs : List (List LogMessage))
    (h : ∀ b ∈ bs, (texts b).Nodup) :
    applyBatches bs = dedupByText (joinAll bs) ∧
    (texts (applyBatches bs)).Nodup ∧
    (∀ cur b, addLogs cur b = cur ++ b.filter fun e => decide (e.text ∉ texts cur)) := by
  have hmain : applyBatches bs = dedupByText (joinAll bs) := by
    have hfold := foldl_addLogs_eq bs [] h
    simpa [applyBatches, dedupByText, texts] using hfold
  refine ⟨hmain, ?_, fun cur b => addLogs_eq cur b⟩
  rw [hmain]
  exact (dedupFrom_nodup (joinAll bs) []).1

/-- Witness for C2 as amended: the same text arriving again in a later batch
with a different kind is dropped, first occurrence wins. -/
theorem claim_C2_amended_witness :
    (∀ b ∈ [[(⟨.info, "x"⟩ : LogMessage)], [⟨.error, "x"⟩, ⟨.info, "y"⟩]],
       (texts b).Nodup) ∧
    (applyBatches [[⟨.info, "x"⟩], [⟨.error, "x"⟩, ⟨.info, "y"⟩]] =
       dedupByText (joinAll [[⟨.info, "x"⟩], [⟨.error, "x"⟩, ⟨.info, "y"⟩]]) ∧
     (texts (applyBatches [[⟨.info, "x"⟩], [⟨.error, "x"⟩, ⟨.info, "y"⟩]])).Nodup ∧
     (∀ cur b, addLogs cur b = cur ++ b.filter fun e => decide (e.text ∉ texts cur))) :=
  ⟨by decide, claim_C2_amended _ (by decide)⟩

end FinanceDash
